import Mathlib

/-!
Verification of the KabeNaki character-extraction and sprite-compositing core.

The Python source (Source/Tkinter/tkinter_app_fix_RGBA.py, with the near-identical
Streamlit copy Source/Streamlit/web.py) is shallowly embedded below.  Floating
point values (positions, color factors) are modelled as rationals; 8-bit image
pixels as naturals; Python dicts that are iterated in insertion order as
association lists.  Python int() truncation toward zero is truncQ, and the
stable Timsort used by Python sorted(key=...) is modelled by insertion sort,
which computes the identical list for every total preorder because stable
sorting is extensionally unique.
-/

set_option maxHeartbeats 1000000

/-- RGBA color multiplier with rational channels, the m_Color record of a
SpriteRenderer and the custom color factors of the GUI. -/
structure Rgba where
  r : ℚ
  g : ℚ
  b : ℚ
  a : ℚ
deriving DecidableEq

/-- One 8-bit straight-alpha pixel of a raster buffer. -/
structure PixelB where
  r : ℕ
  g : ℕ
  b : ℕ
  a : ℕ
deriving DecidableEq

/-- A pixel with rational channels, used for the idealized alpha arithmetic of
the canvas. -/
structure PixelQ where
  r : ℚ
  g : ℚ
  b : ℚ
  a : ℚ
deriving DecidableEq

/-- Interprets an 8-bit pixel as a rational pixel. -/
def PixelB.toQ (p : PixelB) : PixelQ :=
  ⟨(p.r : ℚ), (p.g : ℚ), (p.b : ℚ), (p.a : ℚ)⟩

/-- Three dimensional vector, the m_LocalPosition / m_LocalScale payload. -/
structure Vec3 where
  x : ℚ
  y : ℚ
  z : ℚ
deriving DecidableEq

/-- Quaternion, the m_LocalRotation payload. -/
structure Quat where
  x : ℚ
  y : ℚ
  z : ℚ
  w : ℚ
deriving DecidableEq

/-- Python int() truncation toward zero on a rational. -/
def truncQ (q : ℚ) : ℤ :=
  if 0 ≤ q then ⌊q⌋ else ⌈q⌉

/-! ### Color tint correction (CharacterExtractor.apply_color_correction,
SpriteCompositor.apply_color_adjustment) -/

/-- One channel of the tint correction: multiply the 8-bit channel by the
rational factor, clip to the interval from 0 to 255 as np.clip does, and
truncate back to an integer as astype(uint8) does on the clipped value. -/
def tintChannel (f : ℚ) (c : ℕ) : ℕ :=
  (⌊min (max ((c : ℚ) * f) 0) 255⌋).toNat

/-- Tint correction of a single pixel: each of the four channels is scaled by
the matching factor independently. -/
def tintPixel (cf : Rgba) (p : PixelB) : PixelB :=
  ⟨tintChannel cf.r p.r, tintChannel cf.g p.g, tintChannel cf.b p.b, tintChannel cf.a p.a⟩

/-- Embeds CharacterExtractor.apply_color_correction: the buffer is converted to
a float array, every channel of every pixel is multiplied by the matching
factor, the result is clipped to the 8-bit range and cast back to uint8.  The
input buffer is not touched; a fresh buffer is produced. -/
def apply_color_correction (img : List (List PixelB)) (cf : Rgba) : List (List PixelB) :=
  img.map (fun row => row.map (tintPixel cf))

/-- Embeds SpriteCompositor.apply_color_adjustment, whose body is identical to
apply_color_correction. -/
def apply_color_adjustment (img : List (List PixelB)) (cf : Rgba) : List (List PixelB) :=
  img.map (fun row => row.map (tintPixel cf))

/-- Row-major pixel lookup in a buffer: row j, column i. -/
def bufGet (img : List (List PixelB)) (i j : ℕ) : Option PixelB :=
  (img[j]?).bind (fun row => row[i]?)

/-! ### Part categorization (CharacterExtractor.categorize_part) -/

/-- Python substring membership test (the in operator) on character lists. -/
def isSubstr (p s : List Char) : Bool :=
  s.tails.any (fun t => p.isPrefixOf t)

/-- Lower-cased character list of a name, as name.lower() produces for the
ASCII names appearing in the data. -/
def lowerName (name : String) : List Char :=
  name.toList.map Char.toLower

/-- Embeds CharacterExtractor.categorize_part: a fixed priority-ordered chain of
case-insensitive substring tests on the part name, first match wins. -/
def categorize_part (name : String) : String :=
  let n := lowerName name
  if ["body", "torso"].any (fun w => isSubstr w.toList n) then "body"
  else if ["head", "face"].any (fun w => isSubstr w.toList n) then "head"
  else if isSubstr "arml".toList n || isSubstr "leftarm".toList n then "arm_left"
  else if isSubstr "armr".toList n || isSubstr "rightarm".toList n then "arm_right"
  else if isSubstr "arm".toList n then "arms"
  else if isSubstr "eye".toList n then "eyes"
  else if isSubstr "mouth".toList n then "mouth"
  else if isSubstr "hair".toList n then "hair"
  else if ["blend", "effect", "shadow"].any (fun w => isSubstr w.toList n) then "effects"
  else "other"

/-- The categorization rule table exactly as the specification lists it:
keyword alternatives paired with the resulting category, in priority order. -/
def categoryRules : List (List String × String) :=
  [(["body", "torso"], "body"),
   (["head", "face"], "head"),
   (["arml", "leftarm"], "arm_left"),
   (["armr", "rightarm"], "arm_right"),
   (["arm"], "arms"),
   (["eye"], "eyes"),
   (["mouth"], "mouth"),
   (["hair"], "hair"),
   (["blend", "effect", "shadow"], "effects")]

/-- First-match evaluation of a rule table, defaulting to the category other. -/
def firstRuleMatch (n : List Char) : List (List String × String) → String
  | [] => "other"
  | (kws, cat) :: rest =>
    if kws.any (fun w => isSubstr w.toList n) then cat else firstRuleMatch n rest

/-- Specification-side categorization: the first matching rule of the fixed
priority-ordered table wins, with case-insensitive substring matching. -/
def specCategorize (name : String) : String :=
  firstRuleMatch (lowerName name) categoryRules

/-! ### Object graph records and the part resolver
(CharacterExtractor.extract_character_parts, steps 1, 2 and 5) -/

/-- A GameObject record as stored by step 1 of extract_character_parts. -/
structure GameObjectRec where
  id : Int
  name : String
  components : List Int
  is_active : Bool
deriving DecidableEq

/-- A Transform record as stored by step 1 of extract_character_parts. -/
structure TransformRec where
  id : Int
  game_object : Int
  local_position : Vec3
  local_rotation : Quat
  local_scale : Vec3
  children : List Int
  parent : Int
deriving DecidableEq

/-- A SpriteRenderer record as stored by step 1 of extract_character_parts. -/
structure RendererRec where
  id : Int
  game_object : Int
  sprite : Int
  sorting_order : Int
  color : Rgba
deriving DecidableEq

/-- The intermediate part dictionary built by step 2 of
extract_character_parts for every object owning both a transform and a
renderer. -/
structure PartRec where
  name : String
  game_object_id : Int
  transform_id : Int
  sprite_renderer_id : Int
  position : Vec3
  sorting_order : Int
  sprite_id : Int
  is_active : Bool
  initial_color : Rgba
  color_corrected : Bool
deriving DecidableEq

/-- Embeds step 2 of extract_character_parts: for every game object, scan the
transforms and the renderers for the first record whose game_object back
reference equals the object id; only when both exist is one part record
appended. -/
def characterParts (gos : List GameObjectRec) (trs : List TransformRec)
    (srs : List RendererRec) : List PartRec :=
  gos.filterMap (fun go =>
    match trs.find? (fun t => t.game_object == go.id),
          srs.find? (fun r => r.game_object == go.id) with
    | some t, some r =>
      some ⟨go.name, go.id, t.id, r.id, t.local_position, r.sorting_order,
            r.sprite, go.is_active, r.color, false⟩
    | _, _ => none)

/-- Metadata of one extracted sprite in the sprite_mapping dictionary of
extract_character_parts: name and pixel size of the saved image. -/
structure SpriteMeta where
  name : String
  size : ℕ × ℕ
deriving DecidableEq

/-- The flat renderable part entry appended to transform_data by step 5 of
extract_character_parts. -/
structure FlatPart where
  name : String
  sprite_name : String
  sprite_size : ℕ × ℕ
  position : Vec3
  sorting_order : Int
  selected : Bool
  category : String
  initial_color : Rgba
  color_corrected : Bool
  custom_color : Rgba
deriving DecidableEq

/-- Embeds step 5 of extract_character_parts: each intermediate part is kept
only when its sprite id is a key of the sprite mapping, in which case exactly
one flat part carrying the categorization is emitted. -/
def transformData (parts : List PartRec) (smap : List (Int × SpriteMeta)) : List FlatPart :=
  parts.filterMap (fun p =>
    (smap.find? (fun kv => kv.1 == p.sprite_id)).map (fun kv =>
      ⟨p.name, kv.2.name, kv.2.size, p.position, p.sorting_order, false,
       categorize_part p.name, p.initial_color, p.color_corrected, p.initial_color⟩))

/-! ### Hierarchy assembly (build_hierarchy inside extract_character_parts) -/

/-- A node of the diagnostic hierarchy tree built by build_hierarchy. -/
inductive HNode where
  | mk (name : String) (game_object_id : Int) (transform_id : Int) (level : ℕ)
      (position : Vec3) (has_sprite : Bool) (sorting_order : Int)
      (children : List HNode)

/-- The root transforms, those whose parent reference is zero. -/
def rootTransforms (trs : List TransformRec) : List TransformRec :=
  trs.filter (fun t => t.parent == 0)

mutual

/-- Embeds build_hierarchy with an explicit recursion-depth budget.  The source
recursion carries no visited set, so the budget is the only way to express it
totally: an outer value of none means the budget was exhausted with the
Python recursion still running, some none mirrors the source returning None
for an unresolvable transform id, and some (some n) is a completed node. -/
def build_hierarchy (gos : List GameObjectRec) (trs : List TransformRec)
    (srs : List RendererRec) : ℕ → Int → ℕ → Option (Option HNode)
  | 0, _, _ => none
  | fuel + 1, tid, level =>
    match trs.find? (fun t => t.id == tid) with
    | none => some none
    | some t =>
      match child_nodes gos trs srs fuel t.children level with
      | none => none
      | some kids =>
        let go := gos.find? (fun g => g.id == t.game_object)
        let sr := srs.find? (fun r => r.game_object == t.game_object)
        some (some (HNode.mk ((go.map GameObjectRec.name).getD "Unknown")
          t.game_object tid level t.local_position sr.isSome
          ((sr.map RendererRec.sorting_order).getD 0) kids))
termination_by fuel _ _ => (fuel, 0)

/-- Processes the child id list of one transform under the same budget: a
nonzero child id recurses, a child returning None is skipped exactly as the
source appends nothing for it, and budget exhaustion propagates outward. -/
def child_nodes (gos : List GameObjectRec) (trs : List TransformRec)
    (srs : List RendererRec) : ℕ → List Int → ℕ → Option (List HNode)
  | _, [], _ => some []
  | fuel, cid :: rest, level =>
    if cid == 0 then child_nodes gos trs srs fuel rest level
    else
      match build_hierarchy gos trs srs fuel cid (level + 1) with
      | none => none
      | some none => child_nodes gos trs srs fuel rest level
      | some (some n) =>
        (child_nodes gos trs srs fuel rest level).map (fun ns => n :: ns)
termination_by fuel cids _ => (fuel, cids.length + 1)

end

/-! ### Sprites, canvases and pixel compositing operators -/

/-- A decoded sprite image as a row-major rectangular pixel grid, the result of
Image.open(...).convert(RGBA). -/
structure SpriteImg where
  pixels : List (List PixelB)
deriving DecidableEq

/-- Width of a sprite, the length of its first row. -/
def SpriteImg.width (s : SpriteImg) : ℕ :=
  (s.pixels.headD []).length

/-- Height of a sprite, its number of rows. -/
def SpriteImg.height (s : SpriteImg) : ℕ :=
  s.pixels.length

/-- Total pixel lookup with a fully transparent default. -/
def SpriteImg.pixAt (s : SpriteImg) (i j : ℕ) : PixelB :=
  (s.pixels.getD j []).getD i ⟨0, 0, 0, 0⟩

/-- Bounds-checked pixel lookup in sprite coordinates. -/
def SpriteImg.getPix (s : SpriteImg) (x y : ℤ) : Option PixelB :=
  if 0 ≤ x ∧ x < (s.width : ℤ) ∧ 0 ≤ y ∧ y < (s.height : ℤ) then
    some (s.pixAt x.toNat y.toNat)
  else none

/-- Embeds the test sprite_img.getchannel(A).getbbox() is not None of
create_composite_image: true exactly when some pixel has nonzero alpha. -/
def SpriteImg.anyVisible (s : SpriteImg) : Bool :=
  s.pixels.any (fun row => row.any (fun p => p.a != 0))

/-- Canvas raster: dimensions plus a pixel field over integer coordinates. -/
structure Canvas where
  width : ℕ
  height : ℕ
  pix : ℤ → ℤ → PixelQ

/-- Modelled from the spec: one color channel of the RFC-standard src-over
operator used by PIL Image.alpha_composite on straight-alpha pixels, with
channels and alphas on the 0 to 255 scale.  dc and da are the destination
channel and alpha, sc and sa the source channel and alpha. -/
def srcOverChannel (dc da sc sa : ℚ) : ℚ :=
  (sc * sa + dc * da * (255 - sa) / 255) / (sa + da * (255 - sa) / 255)

/-- Modelled from the spec: the src-over operator on whole pixels.  PIL copies
the destination verbatim when the source alpha is zero, which also avoids the
zero denominator. -/
def srcOver (d s : PixelQ) : PixelQ :=
  if s.a = 0 then d
  else
    ⟨srcOverChannel d.r d.a s.r s.a, srcOverChannel d.g d.a s.g s.a,
     srcOverChannel d.b d.a s.b s.a, s.a + d.a * (255 - s.a) / 255⟩

/-- Modelled from the spec: the naive masked paste Image.paste(src, pos, src)
performs, linearly interpolating every band of destination and source by the
source alpha mask. -/
def pasteMask (d : PixelQ) (s : PixelB) : PixelQ :=
  ⟨((s.r : ℚ) * (s.a : ℚ) + d.r * (255 - (s.a : ℚ))) / 255,
   ((s.g : ℚ) * (s.a : ℚ) + d.g * (255 - (s.a : ℚ))) / 255,
   ((s.b : ℚ) * (s.a : ℚ) + d.b * (255 - (s.a : ℚ))) / 255,
   ((s.a : ℚ) * (s.a : ℚ) + d.a * (255 - (s.a : ℚ))) / 255⟩

/-! ### Canvas sizing (SpriteCompositor.calculate_canvas_size) -/

/-- A renderable part as consumed by the compositor: its name, the outcome of
opening its sprite file (none models an Image.open failure or a missing
sprite reference), its transform position and its sorting order. -/
structure SpritePart where
  name : String
  sprite : Option SpriteImg
  position : Vec3
  sorting_order : Int
deriving DecidableEq

/-- The screen-space bounding values computed for one selected part inside
calculate_canvas_size: left, right, top and bottom. -/
structure Box where
  left : ℚ
  right : ℚ
  top : ℚ
  bottom : ℚ
deriving DecidableEq

/-- The bounds of one sprite inside calculate_canvas_size: the position scaled
by the pixel ratio 100 with the y axis negated, extended by the integer half
width and half height on either side. -/
def spriteBox (p : SpritePart) (s : SpriteImg) : Box :=
  let px := p.position.x * 100
  let py := p.position.y * (-100)
  ⟨px - ((s.width / 2 : ℕ) : ℚ), px + ((s.width / 2 : ℕ) : ℚ),
   py - ((s.height / 2 : ℕ) : ℚ), py + ((s.height / 2 : ℕ) : ℚ)⟩

/-- The boxes of the selected parts whose sprite opened, in part order; a part
whose sprite fails to open contributes nothing, mirroring the except-continue
of the source loop. -/
def selectedBoxes (data : List SpritePart) (selected : List String) : List Box :=
  data.filterMap (fun p =>
    if selected.contains p.name then (p.sprite).map (spriteBox p) else none)

/-- Embeds SpriteCompositor.calculate_canvas_size: an empty part list or an
empty selection yields the base size 2000 by 4000; otherwise the bounds of all
measurable selected sprites are accumulated, and if none were measurable the
base size is again returned; otherwise each dimension is the integer-truncated
extent plus the 400 pixel margin, floored to the base size. -/
def calculate_canvas_size (data : List SpritePart) (selected : List String) : ℕ × ℕ :=
  if data.isEmpty || selected.isEmpty then (2000, 4000)
  else
    match selectedBoxes data selected with
    | [] => (2000, 4000)
    | bx :: bxs =>
      let minx := bxs.foldl (fun m v => min m v.left) bx.left
      let maxx := bxs.foldl (fun m v => max m v.right) bx.right
      let miny := bxs.foldl (fun m v => min m v.top) bx.top
      let maxy := bxs.foldl (fun m v => max m v.bottom) bx.bottom
      ((max 2000 (truncQ (maxx - minx) + 400)).toNat,
       (max 4000 (truncQ (maxy - miny) + 400)).toNat)

/-! ### Depth sorting and painting (SpriteCompositor.create_composite_image) -/

/-- Python dict get with a default on an association list with string keys. -/
def dictGetInt (m : List (String × Int)) (k : String) (d : Int) : Int :=
  match m.find? (fun kv => kv.1 == k) with
  | some kv => kv.2
  | none => d

/-- Python dict membership lookup on an association list of color factors. -/
def dictFindColor (m : List (String × Rgba)) (k : String) : Option Rgba :=
  (m.find? (fun kv => kv.1 == k)).map (fun kv => kv.2)

/-- The source test for applying a custom color: some channel factor differs
from 1 by strictly more than the epsilon 0.001. -/
def nonIdentityColor (c : Rgba) : Bool :=
  (|c.r - 1| > 1 / 1000) || (|c.g - 1| > 1 / 1000) ||
  (|c.b - 1| > 1 / 1000) || (|c.a - 1| > 1 / 1000)

/-- The sprite actually composited for a part: the opened sprite, run through
apply_color_adjustment only when a custom color is registered for the part
name and differs from the identity beyond the epsilon. -/
def maybeTint (colors : List (String × Rgba)) (nm : String) (s : SpriteImg) : SpriteImg :=
  match dictFindColor colors nm with
  | some c => if nonIdentityColor c then ⟨apply_color_adjustment s.pixels c⟩ else s
  | none => s

/-- Embeds the depth sort of create_composite_image: filter to the selected
parts, then sort stably in ascending key order, where the key consults the
custom depth dictionary only when that dictionary is nonempty and has some
nonzero value, and is the raw sorting order otherwise. -/
def sortSelectedParts (data : List SpritePart) (selected : List String)
    (depths : List (String × Int)) : List SpritePart :=
  let sel := data.filter (fun p => selected.contains p.name)
  if (!depths.isEmpty) && depths.any (fun kv => kv.2 != 0) then
    List.insertionSort
      (fun a b => dictGetInt depths a.name a.sorting_order ≤
                  dictGetInt depths b.name b.sorting_order) sel
  else
    List.insertionSort (fun a b => a.sorting_order ≤ b.sorting_order) sel

/-- The screen x coordinate of a part: int(position.x * 100 + center_x) with
center_x the integer half canvas width. -/
def screenX (cw : ℕ) (x : ℚ) : ℤ :=
  truncQ (x * 100 + ((cw / 2 : ℕ) : ℚ))

/-- The screen y coordinate of a part: int(position.y * (-100) + center_y)
with center_y the integer half canvas height. -/
def screenY (ch : ℕ) (y : ℚ) : ℤ :=
  truncQ (y * (-100) + ((ch / 2 : ℕ) : ℚ))

/-- Embeds one loop iteration of create_composite_image: skip the part when
its sprite did not open; otherwise tint if a non-identity custom color is
registered, center the sprite on its screen position with integer-division
half extents, and composite it, with PIL alpha_composite when some pixel has
nonzero alpha and with the masked paste otherwise. -/
def paintPart (canvas : Canvas) (colors : List (String × Rgba)) (p : SpritePart) : Canvas :=
  match p.sprite with
  | none => canvas
  | some s0 =>
    let s := maybeTint colors p.name s0
    let ox := screenX canvas.width p.position.x - ((s.width / 2 : ℕ) : ℤ)
    let oy := screenY canvas.height p.position.y - ((s.height / 2 : ℕ) : ℤ)
    if s.anyVisible then
      { canvas with pix := fun x y =>
          match s.getPix (x - ox) (y - oy) with
          | some sp => srcOver (canvas.pix x y) sp.toQ
          | none => canvas.pix x y }
    else
      { canvas with pix := fun x y =>
          match s.getPix (x - ox) (y - oy) with
          | some sp => pasteMask (canvas.pix x y) sp
          | none => canvas.pix x y }

/-- The same painting step with the branch forced to the src-over compositing
path, the reference behavior the specification demands for every sprite. -/
def paintPartOver (canvas : Canvas) (colors : List (String × Rgba)) (p : SpritePart) : Canvas :=
  match p.sprite with
  | none => canvas
  | some s0 =>
    let s := maybeTint colors p.name s0
    let ox := screenX canvas.width p.position.x - ((s.width / 2 : ℕ) : ℤ)
    let oy := screenY canvas.height p.position.y - ((s.height / 2 : ℕ) : ℤ)
    { canvas with pix := fun x y =>
        match s.getPix (x - ox) (y - oy) with
        | some sp => srcOver (canvas.pix x y) sp.toQ
        | none => canvas.pix x y }

/-- Embeds SpriteCompositor.create_composite_image of the RGBA-fixed Tkinter
application: an empty part list returns None; an omitted selection selects
every part name; the canvas starts fully transparent at the computed size and
the selected parts are painted over it in stable ascending effective depth
order. -/
def create_composite_image (data : List SpritePart) (selOpt : Option (List String))
    (depths : List (String × Int)) (colors : List (String × Rgba)) : Option Canvas :=
  if data.isEmpty then none
  else
    let selected := selOpt.getD (data.map SpritePart.name)
    let cs := calculate_canvas_size data selected
    some ((sortSelectedParts data selected depths).foldl
      (fun c p => paintPart c colors p) ⟨cs.1, cs.2, fun _ _ => ⟨0, 0, 0, 0⟩⟩)

/-- Embeds one loop iteration of the Streamlit create_composite_image, which
always pastes with the alpha mask and never calls alpha_composite. -/
def webPaintPart (canvas : Canvas) (p : SpritePart) : Canvas :=
  match p.sprite with
  | none => canvas
  | some s =>
    let ox := screenX canvas.width p.position.x - ((s.width / 2 : ℕ) : ℤ)
    let oy := screenY canvas.height p.position.y - ((s.height / 2 : ℕ) : ℤ)
    { canvas with pix := fun x y =>
        match s.getPix (x - ox) (y - oy) with
        | some sp => pasteMask (canvas.pix x y) sp
        | none => canvas.pix x y }

/-- Embeds SpriteCompositor.create_composite_image of the Streamlit
application: identical selection, sizing and sorting, but the canvas starts
opaque white and every sprite is pasted with the naive alpha mask. -/
def web_create_composite_image (data : List SpritePart) (selOpt : Option (List String))
    (depths : List (String × Int)) : Option Canvas :=
  if data.isEmpty then none
  else
    let selected := selOpt.getD (data.map SpritePart.name)
    let cs := calculate_canvas_size data selected
    some ((sortSelectedParts data selected depths).foldl webPaintPart
      ⟨cs.1, cs.2, fun _ _ => ⟨255, 255, 255, 255⟩⟩)

/-- The effective depth key the sort of create_composite_image actually uses
for a part: the override dictionary is consulted only when it is nonempty and
carries some nonzero value. -/
def effectiveDepth (depths : List (String × Int)) (p : SpritePart) : Int :=
  if (!depths.isEmpty) && depths.any (fun kv => kv.2 != 0) then
    dictGetInt depths p.name p.sorting_order
  else p.sorting_order

/-- The effective depth key as the claim words it: the override value whenever
the name is present in the override dictionary, the sorting order otherwise. -/
def claimEffectiveDepth (depths : List (String × Int)) (p : SpritePart) : Int :=
  dictGetInt depths p.name p.sorting_order

/-- The claimed screen x coordinate: round(position.x * 100 + width / 2) with
exact halving and rounding to nearest. -/
def claimScreenX (cw : ℕ) (x : ℚ) : ℤ :=
  round (x * 100 + (cw : ℚ) / 2)

/-- Canvas sizing as the claim words it: each dimension is the smallest
integer enclosing the selected extent, that is its ceiling, plus the 400
pixel margin, floored to the minimum size. -/
def claimCanvasSize (data : List SpritePart) (selected : List String) : ℕ × ℕ :=
  if data.isEmpty || selected.isEmpty then (2000, 4000)
  else
    match selectedBoxes data selected with
    | [] => (2000, 4000)
    | bx :: bxs =>
      let minx := bxs.foldl (fun m v => min m v.left) bx.left
      let maxx := bxs.foldl (fun m v => max m v.right) bx.right
      let miny := bxs.foldl (fun m v => min m v.top) bx.top
      let maxy := bxs.foldl (fun m v => max m v.bottom) bx.bottom
      ((max 2000 (⌈maxx - minx⌉ + 400)).toNat,
       (max 4000 (⌈maxy - miny⌉ + 400)).toNat)

/-! ### General helper lemmas -/

/-- Evaluation rule for truncQ on a nonnegative rational. -/
lemma truncQ_eval (q : ℚ) (n : ℤ) (h0 : 0 ≤ q) (h1 : (n : ℚ) ≤ q) (h2 : q < n + 1) :
    truncQ q = n := by
  unfold truncQ
  rw [if_pos h0]
  exact Int.floor_eq_iff.2 ⟨by exact_mod_cast h1, by exact_mod_cast h2⟩

lemma foldl_min_le_init {α : Type} [LinearOrder α] :
    ∀ (l : List α) (a : α), l.foldl min a ≤ a
  | [], a => le_refl a
  | b :: bs, a => le_trans (foldl_min_le_init bs (min a b)) (min_le_left a b)

lemma foldl_min_le_mem {α : Type} [LinearOrder α] :
    ∀ (l : List α) (a x : α), x ∈ l → l.foldl min a ≤ x
  | b :: bs, a, x, hx => by
    rcases List.mem_cons.1 hx with h | h
    · subst h
      exact le_trans (foldl_min_le_init bs (min a x)) (min_le_right a x)
    · exact foldl_min_le_mem bs (min a b) x h

lemma foldl_min_mem {α : Type} [LinearOrder α] :
    ∀ (l : List α) (a : α), l.foldl min a = a ∨ l.foldl min a ∈ l
  | [], a => Or.inl rfl
  | b :: bs, a => by
    simp only [List.foldl_cons]
    rcases foldl_min_mem bs (min a b) with h | h
    · rcases min_choice a b with h2 | h2
      · exact Or.inl (h.trans h2)
      · exact Or.inr (by rw [h, h2]; exact List.mem_cons_self b bs)
    · exact Or.inr (List.mem_cons_of_mem b h)

lemma foldl_max_init_le {α : Type} [LinearOrder α] :
    ∀ (l : List α) (a : α), a ≤ l.foldl max a
  | [], a => le_refl a
  | b :: bs, a => le_trans (le_max_left a b) (foldl_max_init_le bs (max a b))

lemma foldl_max_mem_le {α : Type} [LinearOrder α] :
    ∀ (l : List α) (a x : α), x ∈ l → x ≤ l.foldl max a
  | b :: bs, a, x, hx => by
    rcases List.mem_cons.1 hx with h | h
    · subst h
      exact le_trans (le_max_right a x) (foldl_max_init_le bs (max a x))
    · exact foldl_max_mem_le bs (max a b) x h

lemma foldl_max_mem {α : Type} [LinearOrder α] :
    ∀ (l : List α) (a : α), l.foldl max a = a ∨ l.foldl max a ∈ l
  | [], a => Or.inl rfl
  | b :: bs, a => by
    simp only [List.foldl_cons]
    rcases foldl_max_mem bs (max a b) with h | h
    · rcases max_choice a b with h2 | h2
      · exact Or.inl (h.trans h2)
      · exact Or.inr (by rw [h, h2]; exact List.mem_cons_self b bs)
    · exact Or.inr (List.mem_cons_of_mem b h)

/-- Sorting by an integer key with insertion sort yields a list that is
pairwise nondecreasing in that key. -/
lemma pairwise_insertionSort_key {α : Type} (k : α → Int) (l : List α) :
    (List.insertionSort (fun a b => k a ≤ k b) l).Pairwise (fun a b => k a ≤ k b) := by
  letI : IsTotal α (fun a b => k a ≤ k b) := ⟨fun a b => le_total (k a) (k b)⟩
  letI : IsTrans α (fun a b => k a ≤ k b) := ⟨fun _ _ _ h1 h2 => le_trans h1 h2⟩
  exact List.sorted_insertionSort _ l

/-- Stability of insertion sort for a pair with equal keys. -/
lemma pair_sublist_insertionSort_key {α : Type} (k : α → Int) (l : List α) (a b : α)
    (hab : [a, b].Sublist l) (hk : k a = k b) :
    [a, b].Sublist (List.insertionSort (fun x y => k x ≤ k y) l) := by
  refine List.sublist_insertionSort ?_ hab
  exact List.pairwise_cons.2 ⟨fun c hc => by
    rcases List.mem_singleton.1 hc with rfl
    exact le_of_eq hk, List.pairwise_singleton _ _⟩

/-! ### Claim C9 -/

/-- C9: category assignment is the pure function of the part name given by the
fixed priority-ordered case-insensitive substring rule table with the first
match winning, and in particular LeftArm_Shadow is assigned arm_left, EyeBrow
is assigned eyes and XYZ is assigned other. -/
theorem categorize_part_first_match :
    (∀ name, categorize_part name = specCategorize name) ∧
    categorize_part "LeftArm_Shadow" = "arm_left" ∧
    categorize_part "EyeBrow" = "eyes" ∧
    categorize_part "XYZ" = "other" := by
  refine ⟨fun name => ?_, by decide, by decide, by decide⟩
  simp only [categorize_part, specCategorize, firstRuleMatch, categoryRules,
    List.any_cons, List.any_nil, Bool.or_false]

/-! ### Claim C2 -/

/-- C2: on a cyclic transform table the hierarchy walk never finishes.  The
table holds one root transform whose only child id is its own id.  The fueled
embedding of build_hierarchy answers none, meaning the budget ran out with
the recursion still going, for every budget whatsoever, and the cyclic
transform is a root, so extract_character_parts does start this walk.  The
source guards the recursion with no visited set, so the claimed graceful
termination does not exist; this documents the divergence. -/
theorem build_hierarchy_cycle_diverges :
    (∀ fuel level,
      build_hierarchy [] [⟨1, 1, ⟨0, 0, 0⟩, ⟨0, 0, 0, 1⟩, ⟨1, 1, 1⟩, [1], 0⟩] []
        fuel 1 level = none) ∧
    rootTransforms [⟨1, 1, ⟨0, 0, 0⟩, ⟨0, 0, 0, 1⟩, ⟨1, 1, 1⟩, [1], 0⟩] =
      [⟨1, 1, ⟨0, 0, 0⟩, ⟨0, 0, 0, 1⟩, ⟨1, 1, 1⟩, [1], 0⟩] := by
  refine ⟨fun fuel => ?_, rfl⟩
  induction fuel with
  | zero => intro level; rw [build_hierarchy]
  | succ n ih =>
    intro level
    rw [build_hierarchy]
    simp only [List.find?]
    norm_num
    rw [child_nodes]
    norm_num
    rw [ih (level + 1)]

/-! ### Claim C8 -/

lemma tintChannel_one (c : ℕ) (hc : c ≤ 255) : tintChannel 1 c = c := by
  unfold tintChannel
  rw [mul_one]
  rw [max_eq_left (by positivity)]
  rw [min_eq_left (by exact_mod_cast hc)]
  rw [Int.floor_natCast]
  exact Int.toNat_natCast c

lemma tintChannel_le (f : ℚ) (c : ℕ) : tintChannel f c ≤ 255 := by
  unfold tintChannel
  have h1 : (⌊min (max ((c : ℚ) * f) 0) 255⌋ : ℤ) ≤ 255 := by
    have := Int.floor_le_floor (α := ℚ) (min_le_right (max ((c : ℚ) * f) 0) 255)
    simpa using this
  omega

/-- C8: the tint corrector is the pure per-pixel map that scales each of the
four channels by its factor and clamps the result to the 8-bit range (with the
uint8 cast truncating the clipped value); the identity multiplier reproduces
the buffer pixel for pixel; every output channel stays within the 8-bit range;
and the compositor-side adjustment routine computes the same function.  In
this embedding the input buffer is a value, so it cannot be mutated; the
function allocates its result. -/
theorem apply_color_correction_pure (img : List (List PixelB)) (cf : Rgba)
    (hv : ∀ row ∈ img, ∀ p ∈ row, p.r ≤ 255 ∧ p.g ≤ 255 ∧ p.b ≤ 255 ∧ p.a ≤ 255) :
    apply_color_correction img ⟨1, 1, 1, 1⟩ = img ∧
    (∀ i j, bufGet (apply_color_correction img cf) i j = (bufGet img i j).map (tintPixel cf)) ∧
    (∀ i j p, bufGet (apply_color_correction img cf) i j = some p →
      p.r ≤ 255 ∧ p.g ≤ 255 ∧ p.b ≤ 255 ∧ p.a ≤ 255) ∧
    (∀ (img2 : List (List PixelB)) (cf2 : Rgba),
      apply_color_adjustment img2 cf2 = apply_color_correction img2 cf2) := by
  refine ⟨?_, ?_, ?_, fun _ _ => rfl⟩
  · unfold apply_color_correction
    have hrow : ∀ row ∈ img, row.map (tintPixel ⟨1, 1, 1, 1⟩) = row := by
      intro row hr
      have hp : ∀ p ∈ row, tintPixel ⟨1, 1, 1, 1⟩ p = p := by
        intro p hpm
        obtain ⟨h1, h2, h3, h4⟩ := hv row hr p hpm
        cases p with
        | mk pr pg pb pa =>
          simp only [tintPixel, PixelB.mk.injEq]
          exact ⟨tintChannel_one _ h1, tintChannel_one _ h2,
                 tintChannel_one _ h3, tintChannel_one _ h4⟩
      calc row.map (tintPixel ⟨1, 1, 1, 1⟩) = row.map id :=
            List.map_congr_left (fun a ha => hp a ha)
        _ = row := List.map_id row
    calc img.map (fun row => row.map (tintPixel ⟨1, 1, 1, 1⟩)) = img.map id :=
          List.map_congr_left (fun r hr => hrow r hr)
      _ = img := List.map_id img
  · intro i j
    unfold apply_color_correction bufGet
    rw [List.getElem?_map]
    cases img[j]? with
    | none => rfl
    | some row =>
      simp only [Option.map_some', Option.bind_some, Option.some_bind]
      rw [List.getElem?_map]
  · intro i j p hp
    unfold apply_color_correction bufGet at hp
    rw [List.getElem?_map] at hp
    cases hj : img[j]? with
    | none => rw [hj] at hp; simp at hp
    | some row =>
      rw [hj] at hp
      simp only [Option.map_some', Option.some_bind] at hp
      rw [List.getElem?_map] at hp
      cases hi : row[i]? with
      | none => rw [hi] at hp; simp at hp
      | some q =>
        rw [hi] at hp
        simp only [Option.map_some'] at hp
        rw [Option.some_inj] at hp
        subst hp
        exact ⟨tintChannel_le _ _, tintChannel_le _ _, tintChannel_le _ _, tintChannel_le _ _⟩

/-- Witness for C8 at a concrete one-pixel buffer. -/
theorem apply_color_correction_pure_witness :
    apply_color_correction [[⟨10, 20, 30, 255⟩]] ⟨1, 1, 1, 1⟩ = [[⟨10, 20, 30, 255⟩]] ∧
    (∀ i j, bufGet (apply_color_correction [[⟨10, 20, 30, 255⟩]] ⟨1/2, 1, 1, 1⟩) i j =
      (bufGet [[⟨10, 20, 30, 255⟩]] i j).map (tintPixel ⟨1/2, 1, 1, 1⟩)) ∧
    (∀ i j p, bufGet (apply_color_correction [[⟨10, 20, 30, 255⟩]] ⟨1/2, 1, 1, 1⟩) i j = some p →
      p.r ≤ 255 ∧ p.g ≤ 255 ∧ p.b ≤ 255 ∧ p.a ≤ 255) ∧
    (∀ (img2 : List (List PixelB)) (cf2 : Rgba),
      apply_color_adjustment img2 cf2 = apply_color_correction img2 cf2) :=
  apply_color_correction_pure [[⟨10, 20, 30, 255⟩]] ⟨1/2, 1, 1, 1⟩ (by decide)

/-! ### Claim C3 -/

lemma characterParts_cons (g : GameObjectRec) (gs : List GameObjectRec)
    (trs : List TransformRec) (srs : List RendererRec) :
    characterParts (g :: gs) trs srs =
      (match trs.find? (fun t => t.game_object == g.id),
             srs.find? (fun r => r.game_object == g.id) with
       | some t, some r =>
         [⟨g.name, g.id, t.id, r.id, t.local_position, r.sorting_order,
           r.sprite, g.is_active, r.color, false⟩]
       | _, _ => []) ++ characterParts gs trs srs := by
  unfold characterParts
  rw [List.filterMap_cons]
  cases trs.find? (fun t => t.game_object == g.id) <;>
    cases srs.find? (fun r => r.game_object == g.id) <;> rfl

lemma countP_characterParts_zero (trs : List TransformRec) (srs : List RendererRec)
    (gid : Int) :
    ∀ gos : List GameObjectRec, (∀ g ∈ gos, g.id ≠ gid) →
    (characterParts gos trs srs).countP (fun p => p.game_object_id == gid) = 0
  | [], _ => rfl
  | g :: gs, h => by
    rw [characterParts_cons, List.countP_append]
    have h1 : ∀ g2 ∈ gs, g2.id ≠ gid := fun g2 hg2 => h g2 (List.mem_cons_of_mem _ hg2)
    rw [countP_characterParts_zero trs srs gid gs h1]
    have hg : g.id ≠ gid := h g (List.mem_cons_self _ _)
    cases ht : trs.find? (fun t => t.game_object == g.id) with
    | none => rfl
    | some t =>
      cases hr : srs.find? (fun r => r.game_object == g.id) with
      | none => rfl
      | some r => simp [hg]

lemma countP_characterParts_of_nodup (trs : List TransformRec) (srs : List RendererRec) :
    ∀ (gos : List GameObjectRec) (go : GameObjectRec),
    (gos.map GameObjectRec.id).Nodup → go ∈ gos →
    (characterParts gos trs srs).countP (fun p => p.game_object_id == go.id) =
      (if ((trs.find? (fun t => t.game_object == go.id)).isSome ∧
           (srs.find? (fun r => r.game_object == go.id)).isSome) then 1 else 0)
  | g :: gs, go, hnd, hmem => by
    rw [List.map_cons, List.nodup_cons] at hnd
    rw [characterParts_cons, List.countP_append]
    rcases List.mem_cons.1 hmem with rfl | hmem2
    · have hz : ∀ g2 ∈ gs, g2.id ≠ go.id := by
        intro g2 hg2 he
        exact hnd.1 (he ▸ List.mem_map_of_mem GameObjectRec.id hg2)
      rw [countP_characterParts_zero trs srs go.id gs hz]
      cases ht : trs.find? (fun t => t.game_object == go.id) with
      | none => simp
      | some t =>
        cases hr : srs.find? (fun r => r.game_object == go.id) with
        | none => simp
        | some r => simp
    · have hne : g.id ≠ go.id := by
        intro he
        exact hnd.1 (he ▸ List.mem_map_of_mem GameObjectRec.id hmem2)
      rw [countP_characterParts_of_nodup trs srs gs go hnd.2 hmem2]
      cases ht : trs.find? (fun t => t.game_object == g.id) with
      | none => simp
      | some t =>
        cases hr : srs.find? (fun r => r.game_object == g.id) with
        | none => simp
        | some r => simp [hne]

lemma length_transformData (smap : List (Int × SpriteMeta)) :
    ∀ parts : List PartRec,
    (transformData parts smap).length =
      (parts.filter (fun p => (smap.find? (fun kv => kv.1 == p.sprite_id)).isSome)).length
  | [] => rfl
  | p :: ps => by
    have ih := length_transformData smap ps
    cases hf : smap.find? (fun kv => kv.1 == p.sprite_id) with
    | none =>
      simp only [transformData, List.filterMap_cons, hf, Option.map_none', List.filter_cons,
        Option.isSome_none, Bool.false_eq_true, if_false]
      unfold transformData at ih
      rw [ih]
    | some kv =>
      simp only [transformData, List.filterMap_cons, hf, Option.map_some', List.filter_cons,
        Option.isSome_some, if_true, List.length_cons]
      unfold transformData at ih
      rw [ih]

/-- C3 amended: an ObjectRecord with both an owner-matched TransformRecord and
an owner-matched RendererRecord contributes exactly one entry to the
intermediate joined part list, and an object missing either contributes none;
the final flat part list then keeps exactly those joined parts whose sprite id
resolves in the sprite mapping, so an object whose renderer points at an
unmapped sprite yields no CharacterPart in the output. -/
theorem resolver_exactly_one_part (gos : List GameObjectRec) (trs : List TransformRec)
    (srs : List RendererRec) (smap : List (Int × SpriteMeta)) (go : GameObjectRec)
    (hnd : (gos.map GameObjectRec.id).Nodup) (hmem : go ∈ gos) :
    ((characterParts gos trs srs).countP (fun p => p.game_object_id == go.id) =
      if ((trs.find? (fun t => t.game_object == go.id)).isSome ∧
          (srs.find? (fun r => r.game_object == go.id)).isSome) then 1 else 0) ∧
    (transformData (characterParts gos trs srs) smap).length =
      ((characterParts gos trs srs).filter
        (fun p => (smap.find? (fun kv => kv.1 == p.sprite_id)).isSome)).length :=
  ⟨countP_characterParts_of_nodup trs srs gos go hnd hmem,
   length_transformData smap (characterParts gos trs srs)⟩

/-- Example record set for C3: one object owning one transform and one
renderer whose sprite id 7 is resolvable in the example sprite mapping. -/
def c3go : GameObjectRec := ⟨1, "A", [], true⟩

/-- Example transform table for C3. -/
def c3trs : List TransformRec := [⟨10, 1, ⟨0, 0, 0⟩, ⟨0, 0, 0, 1⟩, ⟨1, 1, 1⟩, [], 0⟩]

/-- Example renderer table for C3. -/
def c3srs : List RendererRec := [⟨20, 1, 7, 5, ⟨1, 1, 1, 1⟩⟩]

/-- Example sprite mapping for C3. -/
def c3map : List (Int × SpriteMeta) := [(7, ⟨"spr", (4, 4)⟩)]

/-- Witness for C3 at a one-object record set with matching transform and
renderer. -/
theorem resolver_exactly_one_part_witness :
    ((characterParts [c3go] c3trs c3srs).countP
        (fun p => p.game_object_id == c3go.id) =
      if ((c3trs.find? (fun t => t.game_object == c3go.id)).isSome ∧
          (c3srs.find? (fun r => r.game_object == c3go.id)).isSome) then 1 else 0) ∧
    (transformData (characterParts [c3go] c3trs c3srs) c3map).length =
      ((characterParts [c3go] c3trs c3srs).filter
        (fun p => (c3map.find? (fun kv => kv.1 == p.sprite_id)).isSome)).length :=
  resolver_exactly_one_part [c3go] c3trs c3srs c3map c3go (by decide) (by decide)

/-- Counterexample for C3 as claimed: object 1 owns both a transform and a
renderer, so the claim promises exactly one CharacterPart in the output part
list, yet with a sprite id that the sprite mapping does not resolve the final
flat list is empty while the intermediate join does hold one record. -/
theorem resolver_unresolved_sprite_drops_part :
    (([⟨10, 1, ⟨0, 0, 0⟩, ⟨0, 0, 0, 1⟩, ⟨1, 1, 1⟩, [], 0⟩] : List TransformRec).find?
        (fun t => t.game_object == 1)).isSome = true ∧
    (([⟨20, 1, 7, 5, ⟨1, 1, 1, 1⟩⟩] : List RendererRec).find?
        (fun r => r.game_object == 1)).isSome = true ∧
    (characterParts [⟨1, "A", [], true⟩]
      [⟨10, 1, ⟨0, 0, 0⟩, ⟨0, 0, 0, 1⟩, ⟨1, 1, 1⟩, [], 0⟩]
      [⟨20, 1, 7, 5, ⟨1, 1, 1, 1⟩⟩]).length = 1 ∧
    (transformData (characterParts [⟨1, "A", [], true⟩]
      [⟨10, 1, ⟨0, 0, 0⟩, ⟨0, 0, 0, 1⟩, ⟨1, 1, 1⟩, [], 0⟩]
      [⟨20, 1, 7, 5, ⟨1, 1, 1, 1⟩⟩]) []).length = 0 := by
  decide

/-! ### Claim C1 -/

/-- C1 amended: the compositor paints exactly the selected parts, as a
permutation of the selection filter, in ascending order of the effective depth
the code actually uses, and the sort is stable: two selected parts in original
relative order with equal effective depth keep that order.  The effective
depth consults the override dictionary only when the dictionary is nonempty
and carries at least one nonzero value; otherwise every part falls back to
its sorting order. -/
theorem sortSelectedParts_stable (data : List SpritePart) (selected : List String)
    (depths : List (String × Int)) :
    (sortSelectedParts data selected depths).Perm
      (data.filter (fun p => selected.contains p.name)) ∧
    (sortSelectedParts data selected depths).Pairwise
      (fun a b => effectiveDepth depths a ≤ effectiveDepth depths b) ∧
    (∀ a b, [a, b].Sublist (data.filter (fun p => selected.contains p.name)) →
      effectiveDepth depths a = effectiveDepth depths b →
      [a, b].Sublist (sortSelectedParts data selected depths)) := by
  by_cases hc : ((!depths.isEmpty) && depths.any (fun kv => kv.2 != 0)) = true
  · have e1 : sortSelectedParts data selected depths =
        List.insertionSort
          (fun a b => dictGetInt depths a.name a.sorting_order ≤
                      dictGetInt depths b.name b.sorting_order)
          (data.filter (fun p => selected.contains p.name)) := by
      unfold sortSelectedParts
      rw [if_pos hc]
    have e2 : ∀ p, effectiveDepth depths p = dictGetInt depths p.name p.sorting_order := by
      intro p
      unfold effectiveDepth
      rw [if_pos hc]
    rw [e1]
    refine ⟨List.perm_insertionSort _ _, ?_, ?_⟩
    · exact (pairwise_insertionSort_key
        (fun p : SpritePart => dictGetInt depths p.name p.sorting_order) _).imp
        (fun h => by rw [e2, e2]; exact h)
    · intro a b hab hk
      rw [e2, e2] at hk
      exact pair_sublist_insertionSort_key
        (fun p : SpritePart => dictGetInt depths p.name p.sorting_order) _ a b hab hk
  · have e1 : sortSelectedParts data selected depths =
        List.insertionSort (fun a b => a.sorting_order ≤ b.sorting_order)
          (data.filter (fun p => selected.contains p.name)) := by
      unfold sortSelectedParts
      rw [if_neg hc]
    have e2 : ∀ p, effectiveDepth depths p = p.sorting_order := by
      intro p
      unfold effectiveDepth
      rw [if_neg hc]
    rw [e1]
    refine ⟨List.perm_insertionSort _ _, ?_, ?_⟩
    · exact (pairwise_insertionSort_key (fun p : SpritePart => p.sorting_order) _).imp
        (fun h => by rw [e2, e2]; exact h)
    · intro a b hab hk
      rw [e2, e2] at hk
      exact pair_sublist_insertionSort_key
        (fun p : SpritePart => p.sorting_order) _ a b hab hk

/-- Witness for C1: two equal-keyed selected parts stay in their original
relative order in the painted sequence. -/
theorem sortSelectedParts_stable_witness :
    [(⟨"X", none, ⟨0, 0, 0⟩, 7⟩ : SpritePart), ⟨"Y", none, ⟨0, 0, 0⟩, 7⟩].Sublist
      (sortSelectedParts [⟨"X", none, ⟨0, 0, 0⟩, 7⟩, ⟨"Y", none, ⟨0, 0, 0⟩, 7⟩]
        ["X", "Y"] []) :=
  (sortSelectedParts_stable [⟨"X", none, ⟨0, 0, 0⟩, 7⟩, ⟨"Y", none, ⟨0, 0, 0⟩, 7⟩]
      ["X", "Y"] []).2.2 ⟨"X", none, ⟨0, 0, 0⟩, 7⟩ ⟨"Y", none, ⟨0, 0, 0⟩, 7⟩
    (List.Sublist.refl _) (by decide)

/-- Counterexample for C1 as claimed: with the override dictionary mapping
part A to depth zero, the claimed effective depth of A (0) is strictly below
the claimed effective depth of B (3), yet the code ignores an all-zero
override dictionary and paints B before A, so the painted order is not
ascending in the claimed key. -/
theorem sortSelectedParts_ignores_zero_overrides :
    (sortSelectedParts [⟨"A", none, ⟨0, 0, 0⟩, 5⟩, ⟨"B", none, ⟨0, 0, 0⟩, 3⟩]
        ["A", "B"] [("A", 0)]).map SpritePart.name = ["B", "A"] ∧
    claimEffectiveDepth [("A", 0)] ⟨"A", none, ⟨0, 0, 0⟩, 5⟩ <
      claimEffectiveDepth [("A", 0)] ⟨"B", none, ⟨0, 0, 0⟩, 3⟩ := by
  decide

/-! ### Claim C5 -/

lemma foldl_min_proj_mem_le {α β : Type} [LinearOrder β] (f : α → β) (x : α) (l : List α) :
    (l.foldl (fun m v => min m (f v)) (f x) ∈ (x :: l).map f) ∧
    (∀ q ∈ (x :: l).map f, l.foldl (fun m v => min m (f v)) (f x) ≤ q) := by
  have he : l.foldl (fun m v => min m (f v)) (f x) = (l.map f).foldl min (f x) :=
    (List.foldl_map f min l (f x)).symm
  constructor
  · rw [he, List.map_cons]
    rcases foldl_min_mem (l.map f) (f x) with h | h
    · rw [h]; exact List.mem_cons_self _ _
    · exact List.mem_cons_of_mem _ h
  · intro q hq
    rw [List.map_cons] at hq
    rcases List.mem_cons.1 hq with rfl | hq2
    · rw [he]; exact foldl_min_le_init _ _
    · rw [he]; exact foldl_min_le_mem _ _ _ hq2

lemma foldl_max_proj_mem_le {α β : Type} [LinearOrder β] (f : α → β) (x : α) (l : List α) :
    (l.foldl (fun m v => max m (f v)) (f x) ∈ (x :: l).map f) ∧
    (∀ q ∈ (x :: l).map f, q ≤ l.foldl (fun m v => max m (f v)) (f x)) := by
  have he : l.foldl (fun m v => max m (f v)) (f x) = (l.map f).foldl max (f x) :=
    (List.foldl_map f max l (f x)).symm
  constructor
  · rw [he, List.map_cons]
    rcases foldl_max_mem (l.map f) (f x) with h | h
    · rw [h]; exact List.mem_cons_self _ _
    · exact List.mem_cons_of_mem _ h
  · intro q hq
    rw [List.map_cons] at hq
    rcases List.mem_cons.1 hq with rfl | hq2
    · rw [he]; exact foldl_max_init_le _ _
    · rw [he]; exact foldl_max_mem_le _ _ _ hq2

lemma selectedBoxes_nil_selected (data : List SpritePart) : selectedBoxes data [] = [] := by
  unfold selectedBoxes
  induction data with
  | nil => rfl
  | cons d ds ih => rw [List.filterMap_cons]; exact ih

/-- C5 amended: canvas sizing returns exactly the minimum 2000 by 4000 when
the selection is empty, when the part list is empty, or when no selected part
yields a measurable sprite; a part whose sprite fails to open is excluded
without affecting the result; and otherwise each dimension is the extent of
the selected sprite bounds, truncated toward zero (not rounded up to the
smallest enclosing integer), plus the 400 pixel margin, floored to the
minimum. -/
theorem calculate_canvas_size_spec (data : List SpritePart) (selected : List String) :
    (selected = [] → calculate_canvas_size data selected = (2000, 4000)) ∧
    (∀ p : SpritePart, p.sprite = none →
      calculate_canvas_size (p :: data) selected = calculate_canvas_size data selected) ∧
    (selectedBoxes data selected = [] → calculate_canvas_size data selected = (2000, 4000)) ∧
    (∀ bx bxs, selectedBoxes data selected = bx :: bxs →
      ∃ lo hi tp bt,
        (lo ∈ (bx :: bxs).map Box.left ∧ ∀ q ∈ (bx :: bxs).map Box.left, lo ≤ q) ∧
        (hi ∈ (bx :: bxs).map Box.right ∧ ∀ q ∈ (bx :: bxs).map Box.right, q ≤ hi) ∧
        (tp ∈ (bx :: bxs).map Box.top ∧ ∀ q ∈ (bx :: bxs).map Box.top, tp ≤ q) ∧
        (bt ∈ (bx :: bxs).map Box.bottom ∧ ∀ q ∈ (bx :: bxs).map Box.bottom, q ≤ bt) ∧
        calculate_canvas_size data selected =
          ((max 2000 (truncQ (hi - lo) + 400)).toNat,
           (max 4000 (truncQ (bt - tp) + 400)).toNat)) := by
  refine ⟨?_, ?_, ?_, ?_⟩
  · intro hs
    subst hs
    unfold calculate_canvas_size
    simp
  · intro p hp
    have hfp : (if selected.contains p.name then p.sprite.map (spriteBox p) else none) = none := by
      rw [hp]
      split <;> rfl
    have hbx : selectedBoxes (p :: data) selected = selectedBoxes data selected := by
      unfold selectedBoxes
      rw [List.filterMap_cons, hfp]
    unfold calculate_canvas_size
    rw [hbx]
    by_cases hsel : selected.isEmpty
    · simp [hsel]
    · cases data with
      | nil =>
        rw [show selectedBoxes [] selected = [] from rfl]
        simp [hsel]
      | cons d ds => simp [hsel]
  · intro h
    unfold calculate_canvas_size
    split
    · rfl
    · rw [h]
  · intro bx bxs h
    refine ⟨bxs.foldl (fun m v => min m v.left) bx.left,
            bxs.foldl (fun m v => max m v.right) bx.right,
            bxs.foldl (fun m v => min m v.top) bx.top,
            bxs.foldl (fun m v => max m v.bottom) bx.bottom,
            foldl_min_proj_mem_le Box.left bx bxs,
            foldl_max_proj_mem_le Box.right bx bxs,
            foldl_min_proj_mem_le Box.top bx bxs,
            foldl_max_proj_mem_le Box.bottom bx bxs, ?_⟩
    have hne : data.isEmpty = false := by
      cases data with
      | nil =>
        rw [show selectedBoxes [] selected = [] from rfl] at h
        exact absurd h (by simp)
      | cons d ds => rfl
    have hse : selected.isEmpty = false := by
      cases selected with
      | nil =>
        rw [selectedBoxes_nil_selected] at h
        exact absurd h (by simp)
      | cons s ss => rfl
    unfold calculate_canvas_size
    rw [hne, hse]
    simp only [Bool.or_self, Bool.false_eq_true, if_false]
    rw [h]

/-- Witness for C5: the empty selection on the empty part list yields exactly
the minimum canvas. -/
theorem calculate_canvas_size_spec_witness :
    calculate_canvas_size [] [] = (2000, 4000) :=
  (calculate_canvas_size_spec [] []).1 rfl

/-- Part A for the C5 counterexample: a one-pixel sprite at the origin. -/
def c5pA : SpritePart := ⟨"A", some ⟨[[⟨0, 0, 0, 255⟩]]⟩, ⟨0, 0, 0⟩, 0⟩

/-- Part B for the C5 counterexample: a one-pixel sprite at x = 16.005, so the
selected extent is the fractional value 1600.5. -/
def c5pB : SpritePart := ⟨"B", some ⟨[[⟨0, 0, 0, 255⟩]]⟩, ⟨3201 / 200, 0, 0⟩, 0⟩

/-- Counterexample for C5 as claimed: the selected extent is 1600.5 pixels, so
the smallest enclosing integer rectangle with the 400 margin is 2001 wide, but
the code truncates the extent with int() and returns width 2000, one pixel
short of enclosing the claimed rectangle. -/
theorem calculate_canvas_size_truncates :
    calculate_canvas_size [c5pA, c5pB] ["A", "B"] = (2000, 4000) ∧
    claimCanvasSize [c5pA, c5pB] ["A", "B"] = (2001, 4000) := by
  have hw : SpriteImg.width ⟨[[(⟨0, 0, 0, 255⟩ : PixelB)]]⟩ = 1 := rfl
  have hh : SpriteImg.height ⟨[[(⟨0, 0, 0, 255⟩ : PixelB)]]⟩ = 1 := rfl
  have hA : spriteBox c5pA ⟨[[⟨0, 0, 0, 255⟩]]⟩ = ⟨0, 0, 0, 0⟩ := by
    unfold spriteBox
    rw [hw, hh]
    norm_num [c5pA, Box.mk.injEq]
  have hB : spriteBox c5pB ⟨[[⟨0, 0, 0, 255⟩]]⟩ = ⟨3201 / 2, 3201 / 2, 0, 0⟩ := by
    unfold spriteBox
    rw [hw, hh]
    norm_num [c5pB, Box.mk.injEq]
  have hsb : selectedBoxes [c5pA, c5pB] ["A", "B"] =
      [spriteBox c5pA ⟨[[⟨0, 0, 0, 255⟩]]⟩, spriteBox c5pB ⟨[[⟨0, 0, 0, 255⟩]]⟩] := rfl
  rw [hA, hB] at hsb
  have hfloor : (⌊(3201 : ℚ) / 2 - 0⌋ : ℤ) = 1600 :=
    Int.floor_eq_iff.2 ⟨by norm_num, by norm_num⟩
  have hfloor2 : (⌊(3201 : ℚ) / 2⌋ : ℤ) = 1600 :=
    Int.floor_eq_iff.2 ⟨by norm_num, by norm_num⟩
  have hceil : (⌈(3201 : ℚ) / 2 - 0⌉ : ℤ) = 1601 :=
    Int.ceil_eq_iff.2 ⟨by norm_num, by norm_num⟩
  have hceil2 : (⌈(3201 : ℚ) / 2⌉ : ℤ) = 1601 :=
    Int.ceil_eq_iff.2 ⟨by norm_num, by norm_num⟩
  have hfloor0 : (⌊(0 : ℚ) - 0⌋ : ℤ) = 0 := by norm_num
  have hceil0 : (⌈(0 : ℚ) - 0⌉ : ℤ) = 0 := by norm_num
  constructor
  · unfold calculate_canvas_size
    rw [hsb]
    simp only [List.isEmpty_cons, Bool.or_self, Bool.false_eq_true, if_false,
      List.foldl_cons, List.foldl_nil]
    norm_num [min_def, max_def, truncQ, hfloor, hfloor2, hfloor0]
    exact ⟨rfl, rfl⟩
  · unfold claimCanvasSize
    rw [hsb]
    simp only [List.isEmpty_cons, Bool.or_self, Bool.false_eq_true, if_false,
      List.foldl_cons, List.foldl_nil]
    norm_num [min_def, max_def, hceil, hceil2, hceil0]
    exact ⟨rfl, rfl⟩

/-! ### Claim C6 -/

lemma paintPart_skip_none (canvas : Canvas) (colors : List (String × Rgba))
    (p : SpritePart) (hp : p.sprite = none) : paintPart canvas colors p = canvas := by
  unfold paintPart
  rw [hp]

lemma filter_contains_nil (data : List SpritePart) :
    data.filter (fun p => List.contains ([] : List String) p.name) = [] := by
  induction data with
  | nil => rfl
  | cons d ds ih => rw [List.filter_cons]; exact ih

lemma sortSelectedParts_nil_selected (data : List SpritePart) (depths : List (String × Int)) :
    sortSelectedParts data [] depths = [] := by
  unfold sortSelectedParts
  rw [filter_contains_nil]
  split <;> rfl

/-- C6 amended: for every nonempty part list the composite render with the
empty selection returns a fully transparent canvas of exactly the minimum
size 2000 by 4000, and a part whose sprite reference does not resolve is
painted as a no-op, so it cannot abort the composite; for the empty part
list, however, the source returns None rather than a canvas. -/
theorem create_composite_empty_selection (data : List SpritePart)
    (depths : List (String × Int)) (colors : List (String × Rgba)) (h : data ≠ []) :
    (∃ c, create_composite_image data (some []) depths colors = some c ∧
      c.width = 2000 ∧ c.height = 4000 ∧ ∀ x y, c.pix x y = ⟨0, 0, 0, 0⟩) ∧
    (∀ canvas p, p.sprite = none → paintPart canvas colors p = canvas) := by
  refine ⟨?_, fun canvas p hp => paintPart_skip_none canvas colors p hp⟩
  cases data with
  | nil => exact absurd rfl h
  | cons d ds =>
    refine ⟨⟨2000, 4000, fun _ _ => ⟨0, 0, 0, 0⟩⟩, ?_, rfl, rfl, fun _ _ => rfl⟩
    unfold create_composite_image
    have hccs : calculate_canvas_size (d :: ds) [] = (2000, 4000) := by
      unfold calculate_canvas_size
      simp
    simp only [List.isEmpty_cons, Bool.false_eq_true, if_false, Option.getD_some]
    rw [sortSelectedParts_nil_selected, hccs]
    rfl

/-- Witness for C6 at a concrete one-part list. -/
theorem create_composite_empty_selection_witness :
    (∃ c, create_composite_image [⟨"A", none, ⟨0, 0, 0⟩, 0⟩] (some []) [] [] = some c ∧
      c.width = 2000 ∧ c.height = 4000 ∧ ∀ x y, c.pix x y = ⟨0, 0, 0, 0⟩) ∧
    (∀ canvas p, p.sprite = none → paintPart canvas [] p = canvas) :=
  create_composite_empty_selection [⟨"A", none, ⟨0, 0, 0⟩, 0⟩] [] []
    (List.cons_ne_nil _ _)

/-- Counterexample for C6 as claimed: on the empty part list the composite
render returns an absent result instead of a transparent minimum canvas. -/
theorem create_composite_empty_data_none :
    create_composite_image [] (some []) [] [] = none := rfl

/-! ### Painting helper lemmas -/

lemma spriteImg_getPix_in (s : SpriteImg) (i j : ℕ) (hi : i < s.width) (hj : j < s.height) :
    s.getPix (i : ℤ) (j : ℤ) = some (s.pixAt i j) := by
  unfold SpriteImg.getPix
  rw [if_pos ⟨by positivity, by exact_mod_cast hi, by positivity, by exact_mod_cast hj⟩]
  simp

lemma spriteImg_getPix_out (s : SpriteImg) (x y : ℤ)
    (h : x < 0 ∨ (s.width : ℤ) ≤ x ∨ y < 0 ∨ (s.height : ℤ) ≤ y) :
    s.getPix x y = none := by
  unfold SpriteImg.getPix
  rw [if_neg (by omega)]

/-- Pointwise characterization of one painting step of the RGBA-fixed
compositor for a part whose sprite opened. -/
lemma paintPart_pix (canvas : Canvas) (colors : List (String × Rgba)) (p : SpritePart)
    (s : SpriteImg) (hs : p.sprite = some s) (x y : ℤ) :
    (paintPart canvas colors p).pix x y =
      (match (maybeTint colors p.name s).getPix
          (x - (screenX canvas.width p.position.x -
            (((maybeTint colors p.name s).width / 2 : ℕ) : ℤ)))
          (y - (screenY canvas.height p.position.y -
            (((maybeTint colors p.name s).height / 2 : ℕ) : ℤ))) with
       | some sp =>
         if (maybeTint colors p.name s).anyVisible then srcOver (canvas.pix x y) sp.toQ
         else pasteMask (canvas.pix x y) sp
       | none => canvas.pix x y) := by
  unfold paintPart
  rw [hs]
  dsimp only
  by_cases hv : (maybeTint colors p.name s).anyVisible = true
  · rw [if_pos hv]
    cases hg : (maybeTint colors p.name s).getPix
        (x - (screenX canvas.width p.position.x -
          (((maybeTint colors p.name s).width / 2 : ℕ) : ℤ)))
        (y - (screenY canvas.height p.position.y -
          (((maybeTint colors p.name s).height / 2 : ℕ) : ℤ))) with
    | none => simp only [hg]
    | some sp => simp only [hg, hv, if_true]
  · rw [if_neg hv]
    cases hg : (maybeTint colors p.name s).getPix
        (x - (screenX canvas.width p.position.x -
          (((maybeTint colors p.name s).width / 2 : ℕ) : ℤ)))
        (y - (screenY canvas.height p.position.y -
          (((maybeTint colors p.name s).height / 2 : ℕ) : ℤ))) with
    | none => simp only [hg]
    | some sp => simp only [hg, hv, Bool.false_eq_true, if_false]

lemma paintPart_dims (canvas : Canvas) (colors : List (String × Rgba)) (p : SpritePart) :
    (paintPart canvas colors p).width = canvas.width ∧
    (paintPart canvas colors p).height = canvas.height := by
  unfold paintPart
  cases p.sprite with
  | none => exact ⟨rfl, rfl⟩
  | some s =>
    dsimp only
    split <;> exact ⟨rfl, rfl⟩

/-! ### Claim C7 -/

/-- C7 amended: the screen position of a painted part is the int() truncation
(not the rounding to nearest) of position times the ratio 100 plus the integer
half canvas extent, with the y axis negated, and the placement origin is that
screen position minus the integer half sprite extent: pixels outside the
placed rectangle are untouched and sprite pixel (i, j) lands at placement
plus (i, j), blended by src-over when the sprite has a visible pixel. -/
theorem paintPart_placement (canvas : Canvas) (colors : List (String × Rgba))
    (p : SpritePart) (s : SpriteImg) (hs : p.sprite = some s) :
    (∀ (cw : ℕ) (q : ℚ), screenX cw q = truncQ (q * 100 + ((cw / 2 : ℕ) : ℚ))) ∧
    (∀ (ch : ℕ) (q : ℚ), screenY ch q = truncQ (q * (-100) + ((ch / 2 : ℕ) : ℚ))) ∧
    (paintPart canvas colors p).width = canvas.width ∧
    (paintPart canvas colors p).height = canvas.height ∧
    (∀ x y : ℤ,
      (x < screenX canvas.width p.position.x -
          (((maybeTint colors p.name s).width / 2 : ℕ) : ℤ) ∨
       screenX canvas.width p.position.x -
          (((maybeTint colors p.name s).width / 2 : ℕ) : ℤ) +
          ((maybeTint colors p.name s).width : ℤ) ≤ x ∨
       y < screenY canvas.height p.position.y -
          (((maybeTint colors p.name s).height / 2 : ℕ) : ℤ) ∨
       screenY canvas.height p.position.y -
          (((maybeTint colors p.name s).height / 2 : ℕ) : ℤ) +
          ((maybeTint colors p.name s).height : ℤ) ≤ y) →
      (paintPart canvas colors p).pix x y = canvas.pix x y) ∧
    (∀ i j : ℕ, i < (maybeTint colors p.name s).width →
      j < (maybeTint colors p.name s).height →
      (paintPart canvas colors p).pix
        (screenX canvas.width p.position.x -
          (((maybeTint colors p.name s).width / 2 : ℕ) : ℤ) + i)
        (screenY canvas.height p.position.y -
          (((maybeTint colors p.name s).height / 2 : ℕ) : ℤ) + j) =
        if (maybeTint colors p.name s).anyVisible then
          srcOver (canvas.pix
            (screenX canvas.width p.position.x -
              (((maybeTint colors p.name s).width / 2 : ℕ) : ℤ) + i)
            (screenY canvas.height p.position.y -
              (((maybeTint colors p.name s).height / 2 : ℕ) : ℤ) + j))
            ((maybeTint colors p.name s).pixAt i j).toQ
        else
          pasteMask (canvas.pix
            (screenX canvas.width p.position.x -
              (((maybeTint colors p.name s).width / 2 : ℕ) : ℤ) + i)
            (screenY canvas.height p.position.y -
              (((maybeTint colors p.name s).height / 2 : ℕ) : ℤ) + j))
            ((maybeTint colors p.name s).pixAt i j)) := by
  refine ⟨fun _ _ => rfl, fun _ _ => rfl,
    (paintPart_dims canvas colors p).1, (paintPart_dims canvas colors p).2, ?_, ?_⟩
  · intro x y hxy
    rw [paintPart_pix canvas colors p s hs]
    rw [spriteImg_getPix_out _ _ _ (by omega)]
  · intro i j hi hj
    rw [paintPart_pix canvas colors p s hs]
    have hxi : (screenX canvas.width p.position.x -
        (((maybeTint colors p.name s).width / 2 : ℕ) : ℤ) + (i : ℤ)) -
        (screenX canvas.width p.position.x -
        (((maybeTint colors p.name s).width / 2 : ℕ) : ℤ)) = (i : ℤ) := by ring
    have hyj : (screenY canvas.height p.position.y -
        (((maybeTint colors p.name s).height / 2 : ℕ) : ℤ) + (j : ℤ)) -
        (screenY canvas.height p.position.y -
        (((maybeTint colors p.name s).height / 2 : ℕ) : ℤ)) = (j : ℤ) := by ring
    rw [hxi, hyj, spriteImg_getPix_in _ i j hi hj]

/-- Concrete canvas for the C7 witness. -/
def c7canvas : Canvas := ⟨2000, 4000, fun _ _ => ⟨0, 0, 0, 0⟩⟩

/-- Concrete sprite for the C7 witness. -/
def c7sprite : SpriteImg := ⟨[[⟨1, 2, 3, 4⟩]]⟩

/-- Concrete part for the C7 witness. -/
def c7part : SpritePart := ⟨"W", some c7sprite, ⟨0, 0, 0⟩, 0⟩

/-- Witness for C7 at a concrete canvas, part and sprite. -/
theorem paintPart_placement_witness :
    (∀ (cw : ℕ) (q : ℚ), screenX cw q = truncQ (q * 100 + ((cw / 2 : ℕ) : ℚ))) ∧
    (∀ (ch : ℕ) (q : ℚ), screenY ch q = truncQ (q * (-100) + ((ch / 2 : ℕ) : ℚ))) ∧
    (paintPart c7canvas [] c7part).width = c7canvas.width ∧
    (paintPart c7canvas [] c7part).height = c7canvas.height ∧
    (∀ x y : ℤ,
      (x < screenX c7canvas.width c7part.position.x -
          (((maybeTint [] c7part.name c7sprite).width / 2 : ℕ) : ℤ) ∨
       screenX c7canvas.width c7part.position.x -
          (((maybeTint [] c7part.name c7sprite).width / 2 : ℕ) : ℤ) +
          ((maybeTint [] c7part.name c7sprite).width : ℤ) ≤ x ∨
       y < screenY c7canvas.height c7part.position.y -
          (((maybeTint [] c7part.name c7sprite).height / 2 : ℕ) : ℤ) ∨
       screenY c7canvas.height c7part.position.y -
          (((maybeTint [] c7part.name c7sprite).height / 2 : ℕ) : ℤ) +
          ((maybeTint [] c7part.name c7sprite).height : ℤ) ≤ y) →
      (paintPart c7canvas [] c7part).pix x y = c7canvas.pix x y) ∧
    (∀ i j : ℕ, i < (maybeTint [] c7part.name c7sprite).width →
      j < (maybeTint [] c7part.name c7sprite).height →
      (paintPart c7canvas [] c7part).pix
        (screenX c7canvas.width c7part.position.x -
          (((maybeTint [] c7part.name c7sprite).width / 2 : ℕ) : ℤ) + i)
        (screenY c7canvas.height c7part.position.y -
          (((maybeTint [] c7part.name c7sprite).height / 2 : ℕ) : ℤ) + j) =
        if (maybeTint [] c7part.name c7sprite).anyVisible then
          srcOver (c7canvas.pix
            (screenX c7canvas.width c7part.position.x -
              (((maybeTint [] c7part.name c7sprite).width / 2 : ℕ) : ℤ) + i)
            (screenY c7canvas.height c7part.position.y -
              (((maybeTint [] c7part.name c7sprite).height / 2 : ℕ) : ℤ) + j))
            ((maybeTint [] c7part.name c7sprite).pixAt i j).toQ
        else
          pasteMask (c7canvas.pix
            (screenX c7canvas.width c7part.position.x -
              (((maybeTint [] c7part.name c7sprite).width / 2 : ℕ) : ℤ) + i)
            (screenY c7canvas.height c7part.position.y -
              (((maybeTint [] c7part.name c7sprite).height / 2 : ℕ) : ℤ) + j))
            ((maybeTint [] c7part.name c7sprite).pixAt i j)) :=
  paintPart_placement c7canvas [] c7part c7sprite rfl

/-- Counterexample for C7 as claimed: at position x = 0.007 on a 2000 pixel
wide canvas the code computes screen x int(1000.7) = 1000, while the claimed
formula round(1000.7) gives 1001. -/
theorem screenX_truncates_not_rounds :
    screenX 2000 (7 / 1000) = 1000 ∧ claimScreenX 2000 (7 / 1000) = 1001 := by
  constructor
  · unfold screenX
    have he : (7 : ℚ) / 1000 * 100 + ((2000 / 2 : ℕ) : ℚ) = 10007 / 10 := by norm_num
    rw [he]
    exact truncQ_eval _ 1000 (by norm_num) (by norm_num) (by norm_num)
  · unfold claimScreenX
    rw [round_eq]
    have he : (7 : ℚ) / 1000 * 100 + ((2000 : ℕ) : ℚ) / 2 + 1 / 2 = 10012 / 10 := by norm_num
    rw [he]
    exact Int.floor_eq_iff.2 ⟨by norm_num, by norm_num⟩

/-! ### Claim C4 -/

lemma getD_mem_or_default {α : Type} (l : List α) (n : ℕ) (d : α) :
    l.getD n d = d ∨ l.getD n d ∈ l := by
  rw [List.getD_eq_getElem?_getD]
  cases h : l[n]? with
  | none => exact Or.inl rfl
  | some a => exact Or.inr (by simpa using List.getElem?_mem h)

lemma pixAt_alpha_zero (s : SpriteImg) (hv : s.anyVisible = false) (i j : ℕ) :
    (s.pixAt i j).a = 0 := by
  unfold SpriteImg.anyVisible at hv
  rw [List.any_eq_false] at hv
  unfold SpriteImg.pixAt
  rcases getD_mem_or_default s.pixels j [] with h | h
  · rw [h]
    rfl
  · have hrow := hv _ h
    rw [Bool.not_eq_true, List.any_eq_false] at hrow
    rcases getD_mem_or_default (s.pixels.getD j []) i ⟨0, 0, 0, 0⟩ with h2 | h2
    · rw [h2]
    · have := hrow _ h2
      simpa using this

lemma getPix_eq_pixAt (s : SpriteImg) (x y : ℤ) (sp : PixelB)
    (h : s.getPix x y = some sp) : sp = s.pixAt x.toNat y.toNat := by
  unfold SpriteImg.getPix at h
  split at h
  · exact (Option.some_inj.1 h).symm
  · exact absurd h (by simp)

lemma pasteMask_srcOver_of_alpha_zero (d : PixelQ) (sp : PixelB) (h : sp.a = 0) :
    pasteMask d sp = srcOver d sp.toQ := by
  unfold pasteMask srcOver PixelB.toQ
  rw [h]
  rw [if_pos (by norm_num)]
  cases d with
  | mk dr dg db da =>
    simp only [PixelQ.mk.injEq]
    norm_num

/-- C4 amended, part for the RGBA-fixed compositor: the src-over channel value
of a translucent source over a visible destination lies strictly between the
two source channel values whenever they differ (hence is never below the
darker of the two); every painting step of the RGBA-fixed compositor is
result-identical to the unconditional src-over painting step; and the masked
paste of the Streamlit compositor agrees with src-over on the color channels
whenever the destination is opaque, though not on alpha. -/
theorem alpha_blend_correct :
    (∀ dc sc da sa : ℚ, 0 < da → 0 < sa → sa < 255 → dc ≠ sc →
      min dc sc < srcOverChannel dc da sc sa ∧ srcOverChannel dc da sc sa < max dc sc) ∧
    (∀ (canvas : Canvas) (colors : List (String × Rgba)) (p : SpritePart),
      paintPart canvas colors p = paintPartOver canvas colors p) ∧
    (∀ (d : PixelQ) (sp : PixelB), d.a = 255 →
      (pasteMask d sp).r = (srcOver d sp.toQ).r ∧
      (pasteMask d sp).g = (srcOver d sp.toQ).g ∧
      (pasteMask d sp).b = (srcOver d sp.toQ).b) := by
  refine ⟨?_, ?_, ?_⟩
  · intro dc sc da sa hda hsa hsa2 hne
    have hw2 : 0 < da * (255 - sa) / 255 := by
      have : (0 : ℚ) < 255 - sa := by linarith
      positivity
    have hden : 0 < sa + da * (255 - sa) / 255 := by linarith
    unfold srcOverChannel
    rcases lt_or_gt_of_ne hne with hlt | hlt
    · rw [min_eq_left hlt.le, max_eq_right hlt.le]
      constructor
      · rw [lt_div_iff₀ hden]
        nlinarith [mul_lt_mul_of_pos_right hlt hsa]
      · rw [div_lt_iff₀ hden]
        nlinarith [mul_lt_mul_of_pos_right hlt hw2]
    · rw [min_eq_right hlt.le, max_eq_left hlt.le]
      constructor
      · rw [lt_div_iff₀ hden]
        nlinarith [mul_lt_mul_of_pos_right hlt hw2]
      · rw [div_lt_iff₀ hden]
        nlinarith [mul_lt_mul_of_pos_right hlt hsa]
  · intro canvas colors p
    unfold paintPart paintPartOver
    cases hps : p.sprite with
    | none => rfl
    | some s0 =>
      dsimp only
      by_cases hv : (maybeTint colors p.name s0).anyVisible = true
      · rw [if_pos hv]
      · rw [if_neg hv]
        have hv2 : (maybeTint colors p.name s0).anyVisible = false := by
          revert hv
          cases (maybeTint colors p.name s0).anyVisible <;> simp
        congr 1
        funext x y
        cases hg : (maybeTint colors p.name s0).getPix
            (x - (screenX canvas.width p.position.x -
              (((maybeTint colors p.name s0).width / 2 : ℕ) : ℤ)))
            (y - (screenY canvas.height p.position.y -
              (((maybeTint colors p.name s0).height / 2 : ℕ) : ℤ))) with
        | none => rfl
        | some sp =>
          have hsp := getPix_eq_pixAt _ _ _ _ hg
          have hz : sp.a = 0 := by
            rw [hsp]
            exact pixAt_alpha_zero _ hv2 _ _
          exact pasteMask_srcOver_of_alpha_zero _ _ hz
  · intro d sp hda
    by_cases hsa : sp.a = 0
    · rw [pasteMask_srcOver_of_alpha_zero d sp hsa]
      exact ⟨rfl, rfl, rfl⟩
    · unfold pasteMask srcOver PixelB.toQ srcOverChannel
      rw [if_neg (fun hc => hsa (by exact_mod_cast (show (sp.a : ℚ) = 0 from hc)))]
      rw [hda]
      have hsaq : (sp.a : ℚ) ≠ 0 := by exact_mod_cast hsa
      have hden : (sp.a : ℚ) + 255 * (255 - (sp.a : ℚ)) / 255 ≠ 0 := by
        have h1 : (255 : ℚ) * (255 - (sp.a : ℚ)) / 255 = 255 - (sp.a : ℚ) := by field_simp
        rw [h1]
        norm_num
      refine ⟨?_, ?_, ?_⟩ <;>
        · dsimp only
          rw [div_eq_div_iff (by norm_num) hden]
          field_simp
          ring

/-- Witness for C4: with destination channel 200 (opaque) and source channel
100 at alpha 128, the blended channel lies strictly between 100 and 200. -/
theorem alpha_blend_correct_witness :
    min (200 : ℚ) 100 < srcOverChannel 200 255 100 128 ∧
    srcOverChannel 200 255 100 128 < max (200 : ℚ) 100 :=
  alpha_blend_correct.1 200 100 255 128 (by decide) (by decide) (by decide) (by decide)

/-- Canvas sizing of a single one-pixel sprite at the origin is the minimum
size. -/
lemma ccs_single_origin (nm : String) (px : PixelB) (so : Int) :
    calculate_canvas_size [⟨nm, some ⟨[[px]]⟩, ⟨0, 0, 0⟩, so⟩] [nm] = (2000, 4000) := by
  have hsb : selectedBoxes [⟨nm, some ⟨[[px]]⟩, ⟨0, 0, 0⟩, so⟩] [nm] =
      [spriteBox ⟨nm, some ⟨[[px]]⟩, ⟨0, 0, 0⟩, so⟩ ⟨[[px]]⟩] := by
    unfold selectedBoxes
    rw [List.filterMap_cons]
    simp [List.contains_cons]
  have hbox : spriteBox ⟨nm, some ⟨[[px]]⟩, ⟨0, 0, 0⟩, so⟩ ⟨[[px]]⟩ =
      ⟨0, 0, 0, 0⟩ := by
    unfold spriteBox
    rw [show SpriteImg.width ⟨[[px]]⟩ = 1 from rfl,
        show SpriteImg.height ⟨[[px]]⟩ = 1 from rfl]
    norm_num [Box.mk.injEq]
  rw [hbox] at hsb
  unfold calculate_canvas_size
  rw [hsb]
  simp only [List.isEmpty_cons, Bool.or_self, Bool.false_eq_true, if_false,
    List.foldl_nil]
  norm_num [truncQ, Prod.mk.injEq]
  exact ⟨rfl, rfl⟩

/-- The depth sort of a single selected part is that part alone. -/
lemma sort_single (p : SpritePart) (sel : List String) (h : sel.contains p.name = true) :
    sortSelectedParts [p] sel [] = [p] := by
  unfold sortSelectedParts
  dsimp only
  rw [List.filter_cons, if_pos h]
  rfl

/-- Pointwise characterization of one painting step of the Streamlit
compositor for a part whose sprite opened. -/
lemma webPaintPart_pix (canvas : Canvas) (p : SpritePart) (s : SpriteImg)
    (hs : p.sprite = some s) (x y : ℤ) :
    (webPaintPart canvas p).pix x y =
      (match s.getPix
          (x - (screenX canvas.width p.position.x - ((s.width / 2 : ℕ) : ℤ)))
          (y - (screenY canvas.height p.position.y - ((s.height / 2 : ℕ) : ℤ))) with
       | some sp => pasteMask (canvas.pix x y) sp
       | none => canvas.pix x y) := by
  unfold webPaintPart
  rw [hs]

lemma screenX_2000_origin : screenX 2000 0 = 1000 := by
  unfold screenX
  rw [show (0 : ℚ) * 100 + ((2000 / 2 : ℕ) : ℚ) = 1000 by norm_num]
  exact truncQ_eval _ 1000 (by norm_num) (by norm_num) (by norm_num)

lemma screenY_4000_origin : screenY 4000 0 = 2000 := by
  unfold screenY
  rw [show (0 : ℚ) * (-100) + ((4000 / 2 : ℕ) : ℚ) = 2000 by norm_num]
  exact truncQ_eval _ 2000 (by norm_num) (by norm_num) (by norm_num)

/-- Counterexample for C4 as claimed of the Streamlit compositor: a sprite
with a single half-transparent pixel (alpha 128, certainly a non-opaque
pixel) pasted onto the opaque white canvas produces alpha 48769 over 255,
about 191, strictly below the alpha 255 that the full src-over blend yields,
so that compositor does use the naive masked paste, not src-over. -/
theorem web_paste_not_src_over :
    ((web_create_composite_image [⟨"P", some ⟨[[⟨0, 0, 0, 128⟩]]⟩, ⟨0, 0, 0⟩, 0⟩]
        (some ["P"]) []).map (fun c => c.pix 1000 2000) =
      some ⟨127, 127, 127, 48769 / 255⟩) ∧
    srcOver ⟨255, 255, 255, 255⟩ (PixelB.toQ ⟨0, 0, 0, 128⟩) = ⟨127, 127, 127, 255⟩ ∧
    (48769 / 255 : ℚ) < 255 := by
  refine ⟨?_, ?_, by norm_num⟩
  · have hcc := ccs_single_origin "P" ⟨0, 0, 0, 128⟩ 0
    have hsort := sort_single (⟨"P", some ⟨[[⟨0, 0, 0, 128⟩]]⟩, ⟨0, 0, 0⟩, 0⟩ : SpritePart)
      ["P"] (by decide)
    unfold web_create_composite_image
    simp only [List.isEmpty_cons, Bool.false_eq_true, if_false, Option.getD_some]
    rw [hcc, hsort]
    simp only [List.foldl_cons, List.foldl_nil, Option.map_some']
    rw [webPaintPart_pix _ _ ⟨[[⟨0, 0, 0, 128⟩]]⟩ rfl]
    rw [show ((1000 : ℤ) - (screenX 2000 (0 : ℚ) -
        (((SpriteImg.width ⟨[[⟨0, 0, 0, 128⟩]]⟩) / 2 : ℕ) : ℤ))) = 0 by
      rw [screenX_2000_origin]; rfl]
    rw [show ((2000 : ℤ) - (screenY 4000 (0 : ℚ) -
        (((SpriteImg.height ⟨[[⟨0, 0, 0, 128⟩]]⟩) / 2 : ℕ) : ℤ))) = 0 by
      rw [screenY_4000_origin]; rfl]
    rw [show (SpriteImg.getPix ⟨[[⟨0, 0, 0, 128⟩]]⟩ 0 0) = some ⟨0, 0, 0, 128⟩ from rfl]
    unfold pasteMask
    norm_num [PixelQ.mk.injEq]
  · unfold srcOver PixelB.toQ
    rw [if_neg (by norm_num)]
    unfold srcOverChannel
    norm_num [PixelQ.mk.injEq]

/-! ### Claim C10 -/

/-- C10: calling the composite render with the selection omitted (None) is
exactly the call with every part name selected, and this differs from the
empty selection: on a one-part list the omitted selection paints the part
(the probed pixel carries the sprite color), while the empty selection leaves
the canvas fully transparent there. -/
theorem create_composite_none_selects_all :
    (∀ (data : List SpritePart) (depths : List (String × Int))
        (colors : List (String × Rgba)),
      create_composite_image data none depths colors =
      create_composite_image data (some (data.map SpritePart.name)) depths colors) ∧
    ((create_composite_image [⟨"P", some ⟨[[⟨5, 5, 5, 255⟩]]⟩, ⟨0, 0, 0⟩, 0⟩]
        none [] []).map (fun c => c.pix 1000 2000) = some ⟨5, 5, 5, 255⟩) ∧
    ((create_composite_image [⟨"P", some ⟨[[⟨5, 5, 5, 255⟩]]⟩, ⟨0, 0, 0⟩, 0⟩]
        (some []) [] []).map (fun c => c.pix 1000 2000) = some ⟨0, 0, 0, 0⟩) := by
  refine ⟨fun data depths colors => rfl, ?_, ?_⟩
  · have hcc := ccs_single_origin "P" ⟨5, 5, 5, 255⟩ 0
    have hsort := sort_single
      (⟨"P", some ⟨[[⟨5, 5, 5, 255⟩]]⟩, ⟨0, 0, 0⟩, 0⟩ : SpritePart) ["P"] (by decide)
    unfold create_composite_image
    simp only [List.isEmpty_cons, Bool.false_eq_true, if_false, Option.getD_none,
      List.map_cons, List.map_nil]
    rw [hcc, hsort]
    simp only [List.foldl_cons, List.foldl_nil, Option.map_some']
    rw [paintPart_pix _ [] _ ⟨[[⟨5, 5, 5, 255⟩]]⟩ rfl]
    rw [show maybeTint [] "P" ⟨[[⟨5, 5, 5, 255⟩]]⟩ = ⟨[[⟨5, 5, 5, 255⟩]]⟩ from rfl]
    rw [show ((1000 : ℤ) - (screenX 2000 (0 : ℚ) -
        (((SpriteImg.width ⟨[[⟨5, 5, 5, 255⟩]]⟩) / 2 : ℕ) : ℤ))) = 0 by
      rw [screenX_2000_origin]; rfl]
    rw [show ((2000 : ℤ) - (screenY 4000 (0 : ℚ) -
        (((SpriteImg.height ⟨[[⟨5, 5, 5, 255⟩]]⟩) / 2 : ℕ) : ℤ))) = 0 by
      rw [screenY_4000_origin]; rfl]
    rw [show (SpriteImg.getPix ⟨[[⟨5, 5, 5, 255⟩]]⟩ 0 0) = some ⟨5, 5, 5, 255⟩ from rfl]
    dsimp only
    rw [if_pos (show SpriteImg.anyVisible ⟨[[⟨5, 5, 5, 255⟩]]⟩ = true from rfl)]
    unfold srcOver PixelB.toQ
    rw [if_neg (by norm_num)]
    unfold srcOverChannel
    norm_num [PixelQ.mk.injEq]
  · rfl
